import Mathlib

/-!
# Verification of the go-gpt REPL chat client

Shallow embedding of `src/main.go` (package `main` of agnlt64/go-gpt):
the REPL loop, the command dispatcher, the streaming chat engine, and the
history persistence helpers `saveHistory` / `loadHistory`, together with a
model of the library collaborators they call (`encoding/json` on
`[]openai.ChatCompletionMessage`, the file system, the clipboard).

Modelling conventions:
* Go strings are modelled as Lean `String`; byte indexing (`line[0]`,
  `line[1:]`) is modelled at the character level, which coincides with the
  source for the single-byte command prefixes the configuration requires.
* A Go runtime panic (index out of range) is modelled by the `StepResult.panic`
  constructor; `return` from `main` (process termination) by
  `StepResult.procExit`.
* Side effects (prints, the outbound completion request, file writes, config
  persistence, clipboard writes) are recorded as a list of `Event`s.
  Each `fmt.Printf`/`Println` call becomes one `Event.print` of the formatted
  text with trailing newlines elided; `fmt.Print(chunk)` becomes
  `Event.print chunk`.
* The outcomes of the external world for one REPL iteration (stream
  establishment, stream chunks, file reads, write and clipboard failures,
  the markdown renderer) are supplied in a `TurnEnv` record.
-/

namespace GoGpt

/-- One chat message: models `openai.ChatCompletionMessage` restricted to the
`Role`/`Content` fields, the only fields this program ever sets (its
`MultiContent`, `Name`, tool-call fields are always zero here). -/
structure Msg where
  role : String
  content : String
deriving Repr, DecidableEq

/-- Models the `Config` struct of `main.go` (fields in declaration order,
which is the order the reflection loop of the `config` command visits). -/
structure Config where
  Model : String
  RenderMarkdown : Bool
  Theme : String
  SystemPrompt : String
  DefaultHistoryPath : String
  CommandPrefix : String
deriving Repr, DecidableEq

/-- Models `Command` of `main.go`. -/
structure Command where
  Name : String
  Args : List String
  Description : String
deriving Repr, DecidableEq

/-- The static `replCommands` registry of `main.go`. -/
def replCommands : List Command :=
  [⟨"system", ["show", "reset"], "Manipulate the system prompt"⟩,
   ⟨"embed", ["file"], "Embed a file into the system prompt"⟩,
   ⟨"save", ["path"], "Save the history to <path> (JSON format)"⟩,
   ⟨"load", ["path"], "Load the history from <path> (JSON format)"⟩,
   ⟨"copy", [], "Copy the last LLM response to clipboard"⟩,
   ⟨"config", [], "Show / edit the config"⟩,
   ⟨"help", [], "Display this help"⟩,
   ⟨"exit", [], "Exit the REPL"⟩]

/-! ## A model of JSON values, for the history persistence format -/

/-- JSON values, the interface between `saveHistory` (via
`json.MarshalIndent`) and `loadHistory` (via `json.Unmarshal`).  The
indentation produced by `MarshalIndent` is presentation only and is not part
of the value. -/
inductive Json where
  | str : String → Json
  | num : Int → Json
  | bool : Bool → Json
  | null : Json
  | arr : List Json → Json
  | obj : List (String × Json) → Json
deriving Repr

/-- Model of `json.MarshalIndent` on one message: the (custom) marshaller of
`openai.ChatCompletionMessage` with all optional fields zero emits exactly
the `role` and `content` keys. -/
def msgToJson (m : Msg) : Json :=
  .obj [("role", .str m.role), ("content", .str m.content)]

/-- Model of `json.MarshalIndent(history, "", "  ")` as a JSON value: an array of
message objects in order.  Marshalling never fails for these values (the
custom marshaller only errors when `Content` and `MultiContent` are both
set, and this program never sets `MultiContent`). -/
def marshalHistory (h : List Msg) : Json :=
  .arr (h.map msgToJson)

/-- ASCII lower-casing of one character (case folding is only ever applied
to ASCII identifiers and the value `true` in this program, where Go's
Unicode simple folding coincides with ASCII folding). -/
def asciiLower (c : Char) : Char :=
  if 'A' ≤ c ∧ c ≤ 'Z' then Char.ofNat (c.toNat + 32) else c

/-- Characterwise case-insensitive comparison of two character lists. -/
def eqFoldChars : List Char → List Char → Bool
  | [], [] => true
  | a :: as, b :: bs => (asciiLower a == asciiLower b) && eqFoldChars as bs
  | _, _ => false

/-- Go's `strings.EqualFold`, restricted to ASCII case folding, which is
exact on the identifiers and values this program compares. -/
def eqFold (a b : String) : Bool :=
  eqFoldChars a.data b.data

/-- One step of decoding a JSON object field into a message: `encoding/json`
matches the object key against the struct tags `role` / `content`
case-insensitively, ignores unknown keys, and records (but does not abort on)
a wrong-typed value, leaving the field as it was. -/
def decodeMsgField (m : Msg) (err : Bool) (kv : String × Json) : Msg × Bool :=
  if eqFold kv.1 "role" then
    match kv.2 with
    | .str s => ({ m with role := s }, err)
    | _ => (m, true)
  else if eqFold kv.1 "content" then
    match kv.2 with
    | .str s => ({ m with content := s }, err)
    | _ => (m, true)
  else (m, err)

/-- Decoding one JSON value into a fresh message, modelling
`ChatCompletionMessage.UnmarshalJSON` (which decodes into a fresh zero
struct): an object sets the tagged fields in key order, `null` is a no-op,
any other value is a type error.  The Bool is the error flag. -/
def decodeMsg : Json → Msg × Bool
  | .obj fields => fields.foldl (fun acc kv => decodeMsgField acc.1 acc.2 kv) (⟨"", ""⟩, false)
  | .null => (⟨"", ""⟩, false)
  | _ => (⟨"", ""⟩, true)

/-- Decoding a JSON array into the history slice, modelling `encoding/json`
array decoding: the result has the length of the JSON array; an element whose
decode errors keeps the previous slice element at that index (zero past the
old length); decoding continues past element errors. -/
def decodeArray (olds : List Msg) (elems : List Json) : List Msg × Bool :=
  match elems with
  | [] => ([], false)
  | j :: js =>
    let old := olds.headD ⟨"", ""⟩
    let (m, e1) := decodeMsg j
    let (ms, e2) := decodeArray olds.tail js
    ((if e1 then old else m) :: ms, e1 || e2)

/-- Model of `json.Unmarshal(data, &history)` on syntactically valid JSON: a
top-level array decodes elementwise over the existing slice, `null` sets the
slice to nil, any other top-level value is a type error that leaves the
slice untouched. -/
def unmarshalHistoryJson : Json → List Msg → List Msg × Bool
  | .arr elems, old => decodeArray old elems
  | .null, _ => ([], false)
  | _, old => (old, true)

/-- The bytes `loadHistory` reads from a file: either data that fails
`encoding/json`'s up-front syntax check (`Unmarshal` then returns a syntax
error before touching the target), or a syntactically valid JSON value. -/
inductive FileContent where
  | notJson : String → FileContent
  | json : Json → FileContent
deriving Repr

/-- Model of `json.Unmarshal` of a file's bytes into the history slice:
`(new history, error flag)`. -/
def goUnmarshalMsgs : FileContent → List Msg → List Msg × Bool
  | .notJson _, old => (old, true)
  | .json j, old => unmarshalHistoryJson j old

/-! ## Events and per-iteration environment -/

/-- Observable side effects of one REPL iteration. -/
inductive Event where
  /-- Text printed to the terminal (one `fmt` call, trailing newline elided). -/
  | print : String → Event
  /-- The outbound streaming completion request: model id and message list. -/
  | request : String → List Msg → Event
  /-- The write `os.WriteFile(path, data, 0644)` attempted by `saveHistory`. -/
  | fileWrite : String → Json → Event
  /-- A call `saveConfig(config)`: the configuration persisted to `gpt_config.toml`. -/
  | configWrite : Config → Event
  /-- The write `clipboard.WriteAll(text)` attempted by the `copy` command. -/
  | clipboardWrite : String → Event
deriving Repr

/-- Outcomes of the external world during one REPL iteration. -/
structure TurnEnv where
  /-- Outcome of `client.CreateChatCompletionStream`: error, or the chunk texts
  (`Choices[0].Delta.Content` of each response) received before the first
  `Recv` error or end of stream. -/
  streamResult : Except String (List String)
  /-- Outcome of `os.ReadFile` as used by `loadHistory`: error text or parsed content. -/
  loadRead : String → Except String FileContent
  /-- Outcome of `os.ReadFile` as used by the `embed` command: `none` is a read error. -/
  embedRead : String → Option String
  /-- Possible `os.WriteFile` failure, per path (`saveHistory` discards this result). -/
  writeErr : String → Option String
  /-- Possible `clipboard.WriteAll` failure. -/
  clipboardErr : Option String
  /-- The renderer `glamour.Render text theme` (its error is discarded by the source). -/
  render : String → String → String

/-- Mutable state of the REPL loop in `main`. -/
structure ReplState where
  history : List Msg
  config : Config
  /-- The variable `defaultSystemPrompt`: the snapshot of `config.SystemPrompt` taken at startup. -/
  defaultSystemPrompt : String
  /-- The variable `chatResponse`: the stream accumulator (`strings.Builder`). -/
  chatResponse : String
  running : Bool
deriving Repr, DecidableEq

/-- Result of one iteration of the `REPL:` loop. -/
inductive StepResult where
  /-- The iteration completed; the loop continues (state carries `running`). -/
  | ok : ReplState → List Event → StepResult
  /-- A `return` from `main`: the process terminates after the listed events. -/
  | procExit : List Event → StepResult
  /-- A Go runtime panic (index out of range). -/
  | panic : StepResult
deriving Repr

/-! ## History persistence (`saveHistory`, `loadHistory`) -/

/-- Model of `saveHistory(path)` of `main.go`: marshalling never fails here, so it
writes the marshalled history and prints the success message.  The source
discards the result of `os.WriteFile`, so the events do not depend on
whether the write succeeded. -/
def saveHistory (path : String) (h : List Msg) : List Event :=
  [.fileWrite path (marshalHistory h),
   .print ("History saved to `" ++ path ++ "`")]

/-- Model of `loadHistory(path)` of `main.go`: on a read error, report and leave the
history untouched; otherwise run `json.Unmarshal`, DISCARD its error (as the
source does), and print the success message unconditionally. -/
def loadHistory (path : String) (readResult : Except String FileContent)
    (history : List Msg) : List Msg × List Event :=
  match readResult with
  | .error e => (history, [.print ("Error reading `" ++ path ++ "`: " ++ e)])
  | .ok fc =>
    let res := goUnmarshalMsgs fc history
    (res.1, [.print ("Loaded history from `" ++ path ++ "`")])

/-! ## Help text generation -/

/-- Models `buildCommandStrings` of `main.go`. -/
def buildCommandStrings (commands : List Command) (pfx : String) : List String :=
  commands.map fun cmd =>
    let base := "    " ++ pfx ++ cmd.Name ++ " "
    if cmd.Args.length > 0 then
      base ++ "<" ++ String.intercalate " | " cmd.Args ++ ">"
    else base

/-- Models `findMaxLength` of `main.go` (byte length, which equals character length
on the ASCII command table). -/
def findMaxLength (l : List String) : Nat :=
  l.foldl (fun m s => max m s.length) 0

/-- Models `printFormattedHelp` of `main.go`: each line is the invocation string,
`maxLen - len + 1` spaces of padding, then the description. -/
def printFormattedHelp (commands : List Command) (cmdStrings : List String)
    (maxLen : Nat) : List Event :=
  (commands.zip cmdStrings).map fun p =>
    .print (p.2 ++ String.mk (List.replicate (maxLen - p.2.length + 1) ' ') ++ p.1.Description)

/-- Models `printCommandHelp` of `main.go`. -/
def printCommandHelp (commands : List Command) (pfx : String) : List Event :=
  let commandStrings := buildCommandStrings commands pfx
  let maxLength := findMaxLength commandStrings
  .print "Help:" :: printFormattedHelp commands commandStrings maxLength

/-- A rendering of the configuration as TOML, modelling the
`toml.Marshal` output that `printConfig` prints (marshalling a struct of
strings and bools never fails, so the `panic` branch of `printConfig` is
unreachable). -/
def configToml (c : Config) : String :=
  "Model = \"" ++ c.Model ++ "\"\n" ++
  "RenderMarkdown = " ++ (if c.RenderMarkdown then "true" else "false") ++ "\n" ++
  "Theme = \"" ++ c.Theme ++ "\"\n" ++
  "SystemPrompt = \"" ++ c.SystemPrompt ++ "\"\n" ++
  "DefaultHistoryPath = \"" ++ c.DefaultHistoryPath ++ "\"\n" ++
  "CommandPrefix = \"" ++ c.CommandPrefix ++ "\"\n"

/-! ## The command dispatcher -/

/-- Go's `strings.Split(s, " ")` on a character list: cut at every single
space, keeping empty fields (so the empty input yields one empty field). -/
def splitOnSpaceAux : List Char → List Char → List (List Char)
  | [], acc => [acc.reverse]
  | c :: cs, acc =>
    if c = ' ' then acc.reverse :: splitOnSpaceAux cs []
    else splitOnSpaceAux cs (c :: acc)

/-- The argument tokenisation of the dispatcher: split `line[1:]` on single
spaces (`strings.Split`) and drop empty tokens. -/
def parseCommandArgs (rest : String) : List String :=
  ((splitOnSpaceAux rest.data []).map String.mk).filter (fun s => s ≠ "")

/-- The `value` normalisation of the `config` command for a boolean field:
`strings.EqualFold(value, "true") || value == "1"`. -/
def parseBoolValue (value : String) : Bool :=
  eqFold value "true" || value == "1"

/-- The reflection loop of the `config` command: walk the fields of `Config`
in declaration order, stop at the first case-insensitive name match, set a
Bool field from `parseBoolValue` and a String field to the literal value.
Every field of `Config` is Bool- or String-typed, so the
"unsupported field type" branch of the source is unreachable.
Returns the new config and the `updated` flag. -/
def setConfigField (cfg : Config) (field value : String) : Config × Bool :=
  if eqFold "Model" field then ({ cfg with Model := value }, true)
  else if eqFold "RenderMarkdown" field then
    ({ cfg with RenderMarkdown := parseBoolValue value }, true)
  else if eqFold "Theme" field then ({ cfg with Theme := value }, true)
  else if eqFold "SystemPrompt" field then ({ cfg with SystemPrompt := value }, true)
  else if eqFold "DefaultHistoryPath" field then
    ({ cfg with DefaultHistoryPath := value }, true)
  else if eqFold "CommandPrefix" field then ({ cfg with CommandPrefix := value }, true)
  else (cfg, false)

/-- The `config` handler (`case "config"` of `main.go`); `rest` is
`commandArgs[1:]`.  No argument prints the config; two arguments run the
reflection update, persist via `saveConfig` and confirm on success, or
report the unknown field; any other arity is a usage error. -/
def configCommand (st : ReplState) (rest : List String) : ReplState × List Event :=
  match rest with
  | [] => (st, [.print (configToml st.config)])
  | [field, value] =>
    let res := setConfigField st.config field value
    if res.2 then
      ({ st with config := res.1 },
       [.configWrite res.1, .print ("Config updated: " ++ field ++ " = " ++ value)])
    else
      (st, [.print ("Unknown config field: " ++ field)])
  | _ => (st, [.print ("Usage: " ++ st.config.CommandPrefix ++ "config <Field> <Value>")])

/-- The `embed` handler's file loop: for each named file, a read error
prints a per-file message and continues; a successful read appends
"\nFile `name`:\n" plus the contents to the system prompt and confirms. -/
def embedFiles (st : ReplState) (env : TurnEnv) : List String → ReplState × List Event
  | [] => (st, [])
  | f :: fs =>
    match env.embedRead f with
    | none =>
      let res := embedFiles st env fs
      (res.1, .print ("Error: can't read file `" ++ f ++ "`") :: res.2)
    | some content =>
      let st1 := { st with config := { st.config with
        SystemPrompt := st.config.SystemPrompt ++ "\nFile `" ++ f ++ "`:\n" ++ content } }
      let res := embedFiles st1 env fs
      (res.1, .print ("Added `" ++ f ++ "` to system prompt") :: res.2)

/-- The `switch commandArgs[0]` dispatcher of `main.go`, given a line whose
first byte matched the command prefix.  Indexing `commandArgs[0]` on an
empty token list is a Go panic. -/
def dispatchCommand (st : ReplState) (line : String) (env : TurnEnv) : StepResult :=
  let pfx := st.config.CommandPrefix
  match parseCommandArgs (String.mk (line.data.drop 1)) with
  | [] => .panic
  | cmd :: rest =>
    if cmd = "exit" then
      .ok { st with running := false } [.print "Goodbye!"]
    else if cmd = "embed" then
      if rest.length < 1 then
        .ok st [.print ("Error: `" ++ pfx ++ "embed <file>` command expects at least a file name")]
      else
        let res := embedFiles st env rest
        .ok res.1 res.2
    else if cmd = "system" then
      if rest.length ≠ 1 then
        .ok st [.print ("Error: `" ++ pfx ++ "system <option>` command expects `show`, or `reset`")]
      else match rest with
        | ["show"] => .ok st [.print st.config.SystemPrompt]
        | ["reset"] =>
          .ok { st with config := { st.config with SystemPrompt := st.defaultSystemPrompt } }
            [.print "System prompt has been reset"]
        | _ => .ok st []
    else if cmd = "save" ∨ cmd = "load" then
      if rest.length > 1 then
        .ok st [.print ("Error: `" ++ pfx ++ cmd ++ " <path>` command expects only a file path")]
      else
        let path := match rest with | [p] => p | _ => st.config.DefaultHistoryPath
        if cmd = "save" then
          .ok st (saveHistory path st.history)
        else
          let res := loadHistory path (env.loadRead path) st.history
          .ok { st with history := res.1 } res.2
    else if cmd = "copy" then
      if st.chatResponse.length ≠ 0 then
        match env.clipboardErr with
        | some e =>
          .ok st [.clipboardWrite st.chatResponse, .print ("Error writing to clipboard: " ++ e)]
        | none =>
          .ok st [.clipboardWrite st.chatResponse, .print "LLM response copied to clipboard"]
      else
        .ok st [.print "Nothing to copy!"]
    else if cmd = "config" then
      let res := configCommand st rest
      .ok res.1 res.2
    else if cmd = "help" then
      .ok st (printCommandHelp replCommands pfx)
    else
      .ok st [.print ("Error: `" ++ cmd ++ "` is not a valid REPL command")]

/-! ## The streaming chat engine -/

/-- The chat branch of the REPL loop (lines 333–379 of `main.go`): append the
user turn, build the outbound message list (system prompt, then the whole
history including the just-appended user turn, then the line again as a
trailing user message), and issue the streaming request.  On an
establishment error the source prints the error and executes `return` from
`main`, terminating the process.  Otherwise chunks are accumulated and
printed, the assistant turn is appended, and markdown is optionally
re-rendered. -/
def chatTurn (st : ReplState) (line : String) (env : TurnEnv) : StepResult :=
  let hist1 := st.history ++ [⟨"user", line⟩]
  let messages : List Msg := ⟨"system", st.config.SystemPrompt⟩ :: (hist1 ++ [⟨"user", line⟩])
  let reqEv := Event.request st.config.Model messages
  match env.streamResult with
  | .error e => .procExit [reqEv, .print ("ChatCompletionStream error: " ++ e)]
  | .ok chunks =>
    let fullRes := String.join chunks
    let renderEvs :=
      if st.config.RenderMarkdown then
        [Event.print "\n--- Rendered Markdown ---",
         Event.print (env.render fullRes st.config.Theme)]
      else []
    .ok { st with history := hist1 ++ [⟨"assistant", fullRes⟩], chatResponse := fullRes }
      (reqEv :: (chunks.map Event.print ++ renderEvs))

/-! ## One REPL loop iteration -/

/-- One iteration of the `REPL:` loop of `main.go`, given the line returned
by `rl.Readline()` and the external outcomes for this iteration.  The
classification `line[0] == []byte(config.CommandPrefix)[0]` indexes the
first byte of both strings and panics when either is empty. -/
def replStep (st : ReplState) (line : String) (env : TurnEnv) : StepResult :=
  match line.data.head? with
  | none => .panic
  | some c =>
    match st.config.CommandPrefix.data.head? with
    | none => .panic
    | some p =>
      if c = p then dispatchCommand st line env
      else chatTurn st line env

/-! ## Observation helpers -/

/-- The state after an iteration that kept the process alive. -/
def StepResult.stateOf : StepResult → Option ReplState
  | .ok st _ => some st
  | _ => none

/-- The events of an iteration (a panic produces none). -/
def StepResult.eventsOf : StepResult → List Event
  | .ok _ evs => evs
  | .procExit evs => evs
  | .panic => []

/-- The first outbound completion request of an iteration, if any. -/
def requestOf (r : StepResult) : Option (String × List Msg) :=
  r.eventsOf.findSome? fun e =>
    match e with
    | .request model msgs => some (model, msgs)
    | _ => none

/-- All file writes of an iteration. -/
def fileWritesOf (r : StepResult) : List (String × Json) :=
  r.eventsOf.filterMap fun e =>
    match e with
    | .fileWrite p j => some (p, j)
    | _ => none

/-- Whether an iteration attempted a clipboard write. -/
def wroteClipboard (r : StepResult) : Bool :=
  r.eventsOf.any fun e =>
    match e with
    | .clipboardWrite _ => true
    | _ => false

/-- Whether an iteration persisted the configuration. -/
def wroteConfig (r : StepResult) : Bool :=
  r.eventsOf.any fun e =>
    match e with
    | .configWrite _ => true
    | _ => false

/-- The transcript invariant of the spec: no turn has role `system`. -/
def noSystemTurn (h : List Msg) : Bool :=
  h.all fun m => m.role != "system"

/-- The transcript invariant evaluated on the state surviving an iteration
(vacuously maintained when the iteration panicked or exited the process). -/
def stepKeepsNoSystem (r : StepResult) : Bool :=
  match r.stateOf with
  | some st => noSystemTurn st.history
  | none => true

/-! ## Concrete fixtures (a configuration as in the repository README) -/

/-- A concrete configuration, matching the README's example. -/
def cfgW : Config where
  Model := "gpt-4o-mini"
  RenderMarkdown := false
  Theme := "dark"
  SystemPrompt := "sp"
  DefaultHistoryPath := "history.json"
  CommandPrefix := "/"

/-- The startup state for `cfgW`: empty history, empty accumulator. -/
def stW : ReplState where
  history := []
  config := cfgW
  defaultSystemPrompt := "sp"
  chatResponse := ""
  running := true

/-- State `stW` after one completed assistant response, accumulator "yo". -/
def stR : ReplState :=
  { stW with history := [⟨"user", "hi"⟩, ⟨"assistant", "yo"⟩], chatResponse := "yo" }

/-- State `stW` with one user turn in the history. -/
def stH : ReplState :=
  { stW with history := [⟨"user", "hi"⟩] }

/-- A benign environment: the stream establishes and ends with zero chunks,
every file read fails, writes and the clipboard succeed. -/
def envW : TurnEnv where
  streamResult := .ok []
  loadRead := fun _ => .error "no such file"
  embedRead := fun _ => none
  writeErr := fun _ => none
  clipboardErr := none
  render := fun s _ => s

/-- Environment where establishing the completion stream fails. -/
def envErr : TurnEnv := { envW with streamResult := .error "401 unauthorized" }

/-- Environment where every file read yields bytes that are not valid JSON. -/
def envBadJson : TurnEnv :=
  { envW with loadRead := fun _ => .ok (.notJson "not json at all") }

/-- Environment where every file write fails. -/
def envFailWrite : TurnEnv := { envW with writeErr := fun _ => some "permission denied" }

/-- Environment where every file read yields a saved one-turn history. -/
def envReadH : TurnEnv :=
  { envW with loadRead := fun _ => .ok (.json (marshalHistory [⟨"user", "hi"⟩])) }

/-- A history file whose single turn carries role `system`. -/
def sysFile : FileContent :=
  .json (.arr [.obj [("role", .str "system"), ("content", .str "boom")]])

/-- Environment where every file read yields `sysFile`. -/
def envSysFile : TurnEnv := { envW with loadRead := fun _ => .ok sysFile }

/-! ## Helper lemmas -/

/-- Decoding the marshalled form of one message recovers it exactly. -/
theorem decodeMsg_msgToJson (m : Msg) : decodeMsg (msgToJson m) = (m, false) := rfl

/-- Decoding the marshalled form of a history recovers it exactly, whatever
the previous contents of the slice being decoded into. -/
theorem decodeArray_map_msgToJson (h : List Msg) (olds : List Msg) :
    decodeArray olds (h.map msgToJson) = (h, false) := by
  induction h generalizing olds with
  | nil => rfl
  | cons m ms ih =>
    simp only [List.map_cons, decodeArray, decodeMsg_msgToJson, ih]
    simp

/-- Unmarshalling the bytes written by `saveHistory` recovers the
saved history exactly, with no error, whatever the slice's prior value. -/
theorem unmarshal_marshal (h : List Msg) (olds : List Msg) :
    goUnmarshalMsgs (.json (marshalHistory h)) olds = (h, false) := by
  simp only [goUnmarshalMsgs, marshalHistory, unmarshalHistoryJson,
    decodeArray_map_msgToJson]

/-! ## Claim theorems -/

/-- C1: the spec requires the empty input line to be handled without
faulting and routed to the chat engine; the source instead evaluates
`line[0]` on the empty string, a Go runtime panic.  This theorem evaluates
the loop body at the failing input: every state and environment panic. -/
theorem empty_line_step_panics (st : ReplState) (env : TurnEnv) :
    replStep st "" env = .panic := rfl

/-- C2: the spec requires a stream-establishment failure to abort only the
current turn; the source prints the error and executes `return` from `main`,
terminating the process.  For every state, chat line and error, the chat
branch ends in process exit (after issuing the request and reporting the
error verbatim). -/
theorem stream_error_terminates_process (st : ReplState) (line : String)
    (env : TurnEnv) (e : String) (hstream : env.streamResult = .error e) :
    chatTurn st line env =
      .procExit
        [.request st.config.Model
          (⟨"system", st.config.SystemPrompt⟩ ::
            ((st.history ++ [⟨"user", line⟩]) ++ [⟨"user", line⟩])),
         .print ("ChatCompletionStream error: " ++ e)] := by
  unfold chatTurn
  rw [hstream]

/-- Witness for C2 at a concrete input. -/
theorem stream_error_terminates_process_witness :
    chatTurn stW "hi" envErr =
      .procExit
        [.request "gpt-4o-mini"
          [⟨"system", "sp"⟩, ⟨"user", "hi"⟩, ⟨"user", "hi"⟩],
         .print ("ChatCompletionStream error: " ++ "401 unauthorized")] :=
  stream_error_terminates_process stW "hi" envErr "401 unauthorized" rfl

/-- C3: the spec requires a parse failure of `load` to be reported; the
source discards the `json.Unmarshal` error and prints the success message.
At a file whose bytes are not valid JSON, the transcript is indeed left
untouched, but the only output is `Loaded history from ...`, not an error. -/
theorem load_parse_failure_reports_success :
    replStep stW "/load h.json" envBadJson =
      .ok stW [.print "Loaded history from `h.json`"] := rfl

/-- C4: the spec requires a failed write of `save` to report the error and
print no success message; the source discards the `os.WriteFile` error.  In
an environment where the write of `out.json` fails, the save command still
attempts the write and prints the success message, with no error report. -/
theorem save_write_failure_reports_success :
    replStep stW "/save out.json" envFailWrite =
      .ok stW [.fileWrite "out.json" (marshalHistory []),
               .print "History saved to `out.json`"] := rfl

/-- C6: for every chat line, the outbound message list is exactly one system
message with the current system prompt, then the whole transcript (already
carrying the just-appended user turn), then a duplicate trailing user
message with the same line. -/
theorem outbound_messages_shape (st : ReplState) (line : String) (env : TurnEnv) :
    requestOf (chatTurn st line env) =
      some (st.config.Model,
        ⟨"system", st.config.SystemPrompt⟩ ::
          ((st.history ++ [⟨"user", line⟩]) ++ [⟨"user", line⟩])) := by
  rcases henv : env.streamResult with e | chunks <;>
    simp only [chatTurn, henv, requestOf, StepResult.eventsOf, List.findSome?]

/-- C5: the save command writes exactly the marshalled transcript to the
named path, and a load whose read returns those bytes restores the
transcript exactly (length, roles and contents), in any environment. -/
theorem save_load_roundtrip (st : ReplState) (env env' : TurnEnv)
    (hpfx : st.config.CommandPrefix = "/")
    (hread : env'.loadRead "h.json" = .ok (.json (marshalHistory st.history))) :
    fileWritesOf (replStep st "/save h.json" env) =
      [("h.json", marshalHistory st.history)]
  ∧ (replStep st "/load h.json" env').stateOf.map ReplState.history =
      some st.history := by
  have hsave : replStep st "/save h.json" env = dispatchCommand st "/save h.json" env := by
    unfold replStep
    rw [hpfx]
    rfl
  have hload : replStep st "/load h.json" env' = dispatchCommand st "/load h.json" env' := by
    unfold replStep
    rw [hpfx]
    rfl
  constructor
  · rw [hsave]
    have hd : dispatchCommand st "/save h.json" env =
        .ok st (saveHistory "h.json" st.history) := rfl
    rw [hd]
    rfl
  · rw [hload]
    have hd : dispatchCommand st "/load h.json" env' =
        .ok { st with history := (loadHistory "h.json" (env'.loadRead "h.json") st.history).1 }
          (loadHistory "h.json" (env'.loadRead "h.json") st.history).2 := rfl
    rw [hd, hread]
    simp [StepResult.stateOf, loadHistory, unmarshal_marshal]

/-- Witness for C5 at a concrete one-turn transcript. -/
theorem save_load_roundtrip_witness :
    fileWritesOf (replStep stH "/save h.json" envW) =
      [("h.json", marshalHistory [⟨"user", "hi"⟩])]
  ∧ (replStep stH "/load h.json" envReadH).stateOf.map ReplState.history =
      some [⟨"user", "hi"⟩] :=
  save_load_roundtrip stH envW envReadH rfl rfl

/-- C7 counterexample: the load command accepts a file whose single turn
carries role `system`; loading it from the startup state leaves the
transcript with a `system` turn, so the invariant is not preserved by load
for every accepted input file. -/
theorem load_system_turn_counterexample :
    (replStep stW "/load h.json" envSysFile).stateOf.map
        (fun s => (s.history, noSystemTurn s.history)) =
      some ([⟨"system", "boom"⟩], false) := rfl

/-- The `embed` command only mutates the system prompt, never the transcript. -/
theorem embedFiles_history (st : ReplState) (env : TurnEnv) (fs : List String) :
    (embedFiles st env fs).1.history = st.history := by
  induction fs generalizing st with
  | nil => rfl
  | cons f fs ih =>
    rcases h : env.embedRead f with _ | c <;> simp [embedFiles, h, ih]

/-- The `config` command only mutates the configuration, never the transcript. -/
theorem configCommand_history (st : ReplState) (rest : List String) :
    (configCommand st rest).1.history = st.history := by
  rcases rest with _ | ⟨f, _ | ⟨v, _ | ⟨w, rest⟩⟩⟩
  · rfl
  · rfl
  · by_cases h : (setConfigField st.config f v).2 = true <;> simp [configCommand, h]
  · rfl

/-- A chat turn appends one `user` and one `assistant` turn, so it preserves
the no-`system`-turn invariant. -/
theorem chatTurn_keeps_no_system (st : ReplState) (line : String) (env : TurnEnv)
    (hst : noSystemTurn st.history = true) :
    stepKeepsNoSystem (chatTurn st line env) = true := by
  rcases henv : env.streamResult with e | chunks <;>
    simp [chatTurn, henv, stepKeepsNoSystem, StepResult.stateOf, noSystemTurn,
      List.all_append] at hst ⊢
  exact hst

/-- Function `loadHistory` preserves the no-`system`-turn invariant whenever the read
either fails or returns content that decodes, over the current transcript,
to a transcript without a `system` turn. -/
theorem loadHistory_no_system (p : String) (r : Except String FileContent)
    (h : List Msg) (hst : noSystemTurn h = true)
    (hok : ∀ fc, r = .ok fc → noSystemTurn (goUnmarshalMsgs fc h).1 = true) :
    noSystemTurn (loadHistory p r h).1 = true := by
  rcases r with e | fc
  · simpa [loadHistory] using hst
  · simpa [loadHistory] using hok fc rfl

/-- The dispatcher preserves the no-`system`-turn invariant provided every
file the environment lets `load` read decodes, over the current transcript,
to a transcript without a `system` turn. -/
theorem dispatchCommand_keeps_no_system (st : ReplState) (line : String) (env : TurnEnv)
    (hst : noSystemTurn st.history = true)
    (henv : ∀ p fc, env.loadRead p = .ok fc →
      noSystemTurn (goUnmarshalMsgs fc st.history).1 = true) :
    stepKeepsNoSystem (dispatchCommand st line env) = true := by
  unfold dispatchCommand
  cases parseCommandArgs (String.mk (line.data.drop 1)) with
  | nil => rfl
  | cons cmd rest =>
    repeat' split
    all_goals
      simp_all [stepKeepsNoSystem, StepResult.stateOf, embedFiles_history,
        configCommand_history]
    all_goals
      first
      | rfl
      | exact loadHistory_no_system _ _ _ hst (fun fc hfc => henv _ fc hfc)

/-- C7 (amended): the transcript invariant — no `system` turn — holds for
the empty startup transcript and is preserved by every REPL iteration
(chat-turn appends and all commands), provided every file the load command
is allowed to read decodes to a transcript without a `system` turn (as every
file produced by `save` does); the source does not filter roles on load, so
the restriction on input files is necessary. -/
theorem no_system_invariant (st : ReplState) (line : String) (env : TurnEnv)
    (hst : noSystemTurn st.history = true)
    (henv : ∀ p fc, env.loadRead p = .ok fc →
      noSystemTurn (goUnmarshalMsgs fc st.history).1 = true) :
    stepKeepsNoSystem (replStep st line env) = true := by
  unfold replStep
  cases hline : line.data.head? with
  | none => rfl
  | some c =>
    cases hp : st.config.CommandPrefix.data.head? with
    | none => rfl
    | some p =>
      by_cases hcp : c = p
      · show stepKeepsNoSystem
            (if c = p then dispatchCommand st line env else chatTurn st line env) = true
        rw [if_pos hcp]
        exact dispatchCommand_keeps_no_system st line env hst henv
      · show stepKeepsNoSystem
            (if c = p then dispatchCommand st line env else chatTurn st line env) = true
        rw [if_neg hcp]
        exact chatTurn_keeps_no_system st line env hst

/-- Witness for C7 at the startup state with no readable files. -/
theorem no_system_invariant_witness :
    stepKeepsNoSystem (replStep stW "hello" envW) = true :=
  no_system_invariant stW "hello" envW rfl (fun _ _ h => Except.noConfusion h)

/-- C8 counterexample: after a completed chat turn whose stream yielded zero
chunks, the transcript ends with an assistant turn (of empty content), yet
`copy` reports "Nothing to copy!" and performs no clipboard write, instead
of writing that turn's content. -/
theorem copy_zero_chunk_counterexample :
    (replStep stW "hi" envW).stateOf.map
        (fun s => (s.history.getLast?, (replStep s "/copy" envW).eventsOf,
                   wroteClipboard (replStep s "/copy" envW))) =
      some (some ⟨"assistant", ""⟩, [.print "Nothing to copy!"], false) := rfl

/-- C8 (amended): `copy` keys off the stream accumulator: when the
accumulator is empty (before any chat turn, or after a turn that accumulated
no text) it reports "Nothing to copy!" with no clipboard write; when it is
non-empty it writes exactly the accumulator's content, which after any
completed chat turn equals the last assistant turn's content. -/
theorem copy_accumulator_semantics (st : ReplState) (env : TurnEnv)
    (hpfx : st.config.CommandPrefix = "/") (hclip : env.clipboardErr = none) :
    (st.chatResponse = "" →
      replStep st "/copy" env = .ok st [.print "Nothing to copy!"])
  ∧ (st.chatResponse ≠ "" →
      replStep st "/copy" env =
        .ok st [.clipboardWrite st.chatResponse,
                .print "LLM response copied to clipboard"])
  ∧ (∀ line chunks, env.streamResult = .ok chunks →
      (chatTurn st line env).stateOf.map (fun s => (s.chatResponse, s.history.getLast?)) =
        some (String.join chunks, some ⟨"assistant", String.join chunks⟩)) := by
  have hd : replStep st "/copy" env = dispatchCommand st "/copy" env := by
    unfold replStep
    rw [hpfx]
    rfl
  have hcopy : dispatchCommand st "/copy" env =
      (if st.chatResponse.length ≠ 0 then
        match env.clipboardErr with
        | some e => .ok st [.clipboardWrite st.chatResponse,
                            .print ("Error writing to clipboard: " ++ e)]
        | none => .ok st [.clipboardWrite st.chatResponse,
                          .print "LLM response copied to clipboard"]
       else .ok st [.print "Nothing to copy!"]) := rfl
  refine ⟨?_, ?_, ?_⟩
  · intro h0
    rw [hd, hcopy, h0]
    rfl
  · intro hne
    have hlen : st.chatResponse.length ≠ 0 := by
      rcases hsr : st.chatResponse with ⟨l⟩
      rw [hsr] at hne
      intro h
      have hl : l = [] := List.length_eq_zero.mp h
      subst hl
      exact hne rfl
    rw [hd, hcopy, if_pos hlen, hclip]
  · intro line chunks hs
    unfold chatTurn
    rw [hs]
    simp [StepResult.stateOf, List.getLast?_concat]

/-- Witness for C8 after a completed turn that accumulated "yo". -/
theorem copy_accumulator_semantics_witness :
    replStep stR "/copy" envW =
      .ok stR [.clipboardWrite "yo", .print "LLM response copied to clipboard"] :=
  (copy_accumulator_semantics stR envW rfl rfl).2.1 (by decide)

/-- Case-insensitive list comparison is equality of the case-folded lists. -/
theorem eqFoldChars_iff (as bs : List Char) :
    eqFoldChars as bs = true ↔ as.map asciiLower = bs.map asciiLower := by
  induction as generalizing bs with
  | nil => cases bs <;> simp [eqFoldChars]
  | cons a as ih => cases bs <;> simp [eqFoldChars, ih]

/-- C9: for a `config` invocation naming the boolean field `RenderMarkdown`
in any casing, the field is set to true exactly for value `true`
(case-insensitive) or `1` and to false otherwise, the new configuration is
persisted, and a confirmation is printed; an unknown field name yields an
error, no mutation and no persistence. -/
theorem config_bool_field_semantics (st : ReplState) (field value : String)
    (hfield : eqFold field "RenderMarkdown" = true) :
    (configCommand st [field, value] =
      ({ st with config := { st.config with RenderMarkdown := parseBoolValue value } },
       [.configWrite { st.config with RenderMarkdown := parseBoolValue value },
        .print ("Config updated: " ++ field ++ " = " ++ value)]))
  ∧ parseBoolValue value = (eqFold value "true" || value == "1")
  ∧ (∀ f v, eqFold "Model" f = false → eqFold "RenderMarkdown" f = false →
      eqFold "Theme" f = false → eqFold "SystemPrompt" f = false →
      eqFold "DefaultHistoryPath" f = false → eqFold "CommandPrefix" f = false →
      configCommand st [f, v] = (st, [.print ("Unknown config field: " ++ f)])) := by
  have hf : field.data.map asciiLower = "rendermarkdown".data := by
    have h1 := (eqFoldChars_iff field.data ("RenderMarkdown").data).mp hfield
    rw [h1]
    decide
  have h1 : eqFold "Model" field = false := by
    rw [eqFold]
    apply Bool.eq_false_iff.mpr
    intro hc
    have h2 := (eqFoldChars_iff _ _).mp hc
    rw [hf] at h2
    exact absurd h2 (by decide)
  have h2 : eqFold "RenderMarkdown" field = true := by
    rw [eqFold]
    apply (eqFoldChars_iff _ _).mpr
    rw [hf]
    decide
  refine ⟨?_, rfl, ?_⟩
  · simp [configCommand, setConfigField, h1, h2]
  · intro f v a1 a2 a3 a4 a5 a6
    simp [configCommand, setConfigField, a1, a2, a3, a4, a5, a6]

/-- Witness for C9: lower-cased field name with a non-boolean word as value
(normalises to false), and an unknown field name. -/
theorem config_bool_field_semantics_witness :
    configCommand stW ["rendermarkdown", "maybe"] =
      ({ stW with config := { cfgW with RenderMarkdown := false } },
       [.configWrite { cfgW with RenderMarkdown := false },
        .print "Config updated: rendermarkdown = maybe"])
  ∧ configCommand stW ["Bogus", "x"] = (stW, [.print "Unknown config field: Bogus"]) := by
  have h := config_bool_field_semantics stW "rendermarkdown" "maybe" (by decide)
  exact ⟨h.1, h.2.2 "Bogus" "x" (by decide) (by decide) (by decide) (by decide)
    (by decide) (by decide)⟩

/-- C10: a line consisting of only the command prefix character routes to
the dispatcher, which splits the remainder into zero tokens and then indexes
`commandArgs[0]`: a Go runtime panic, not an unknown-command report. -/
theorem bare_prefix_line_panics (st : ReplState) (env : TurnEnv) (c : Char)
    (hpfx : st.config.CommandPrefix = String.mk [c]) :
    replStep st (String.mk [c]) env = .panic := by
  unfold replStep
  rw [hpfx]
  show (if c = c then dispatchCommand st (String.mk [c]) env
        else chatTurn st (String.mk [c]) env) = .panic
  rw [if_pos rfl]
  rfl

/-- Witness for C10: the line "/" under the README configuration. -/
theorem bare_prefix_line_panics_witness :
    replStep stW "/" envW = .panic :=
  bare_prefix_line_panics stW envW '/' rfl

end GoGpt
